import Mathlib

/-!
Verification of the prompt-construction and response-extraction pipeline of the
`rad-ml-tutorials` notebook (`src/posts/llama-cpp-radiology-report-labeling.ipynb`).

The notebook's core logic is embedded shallowly over `List Char`:

* `json_from_str` (cell 16 of the notebook):
  ```
  def json_from_str(s):
      expr = re.compile(r'\x7b(?:[^\x7b\x7d]*|(?R))*\x7d')
      res = expr.findall(s)
      return json.loads(res[0]) if res else None
  ```
  The recursive regex matches, at each left brace, the span up to the brace-matching
  close brace, counting every brace regardless of string-literal context, and
  `findall` collects the non-overlapping left-to-right matches.  This is embedded
  by `closeIdx`/`findall` below.  `json.loads` is embedded by `loads`, a strict
  JSON parser that fails (returns `Except.error`) on invalid input exactly where
  Python's `json` module raises `JSONDecodeError`.  A raised exception is modelled
  as `Except.error`.

* the `prompt` f-string (cell 12), the `llama2_prompt_template` and
  `mistral_prompt_template` f-strings (cell 13), the `full_prompt` selection
  (cell 14, an if/else on the `model` string), the `schema` string literal
  (cell 10) and the `result_dict` construction (cell 17).
-/

/-- Convert a string literal to the character-list representation used throughout. -/
def chars (s : String) : List Char := s.toList

/-- The left-brace character. -/
def lbrace : Char := Char.ofNat 123

/-- The right-brace character. -/
def rbrace : Char := Char.ofNat 125

/-- Embedding of the span search done by the recursive regex
`r'\x7b(?:[^\x7b\x7d]*|(?R))*\x7d'` at one position: given the text following an
opening brace and the count `d` of still-open inner braces, return the number of
characters up to and including the close brace matching the opening brace, or
`none` when the braces never balance.  String-literal context is *not* consulted,
exactly like the regex. -/
def closeIdx : Nat → List Char → Option Nat
  | _, [] => none
  | d, c :: cs =>
    if c = lbrace then (closeIdx (d + 1) cs).map (fun m => m + 1)
    else if c = rbrace then
      if d = 0 then some 1
      else (closeIdx (d - 1) cs).map (fun m => m + 1)
    else (closeIdx d cs).map (fun m => m + 1)

/-- Fueled worker for `findall`: scan left to right; at each left brace emit the
balanced span when one exists and resume after it, otherwise keep scanning from
the next character.  The fuel is only a termination device; any fuel at least the
input length gives the same answer (`findallGo_fuel`). -/
def findallGo : Nat → List Char → List (List Char)
  | 0, _ => []
  | Nat.succ _, [] => []
  | Nat.succ n, c :: cs =>
    if c = lbrace then
      match closeIdx 0 cs with
      | some k => (c :: cs.take k) :: findallGo n (cs.drop k)
      | none => findallGo n cs
    else findallGo n cs

/-- Embedding of `expr.findall(s)` for the recursive-brace regex: the list of
non-overlapping balanced-brace spans found scanning left to right. -/
def findall (s : List Char) : List (List Char) := findallGo s.length s

/-- `O` is a span the scanner accepts as one whole candidate: it starts with a
left brace and its brace-matching close brace (counted naively, string literals
included) is its final character. -/
def balancedSpan : List Char → Bool
  | [] => false
  | c :: cs => decide (c = lbrace ∧ closeIdx 0 cs = some cs.length)

/-- JSON values as produced by `json.loads`.  Numbers keep their source lexeme
(`json.loads` turns them into Python int/float; no claim depends on numeric
identification of distinct lexemes).  Objects are key/value lists in Python-dict
order: first-occurrence position, with a duplicated key keeping the latest value,
as `dict` does. -/
inductive Json where
  | null
  | bool (b : Bool)
  | num (lexeme : List Char)
  | str (body : List Char)
  | arr (elems : List Json)
  | obj (members : List (List Char × Json))

/-- The JSON whitespace characters skipped between tokens. -/
def isJsonWs (c : Char) : Bool := c = ' ' || c = '\t' || c = '\n' || c = '\r'

/-- Drop leading JSON whitespace. -/
def skipWs : List Char → List Char
  | [] => []
  | c :: cs => if isJsonWs c then skipWs cs else c :: cs

/-- The single-character JSON escapes. -/
def escChar (e : Char) : Option Char :=
  if e = '"' then some '"'
  else if e = '\\' then some '\\'
  else if e = '/' then some '/'
  else if e = 'b' then some (Char.ofNat 8)
  else if e = 'f' then some (Char.ofNat 12)
  else if e = 'n' then some '\n'
  else if e = 'r' then some '\r'
  else if e = 't' then some '\t'
  else none

/-- Value of one hexadecimal digit. -/
def hexVal (c : Char) : Option Nat :=
  if '0' ≤ c ∧ c ≤ '9' then some (c.toNat - 48)
  else if 'a' ≤ c ∧ c ≤ 'f' then some (c.toNat - 87)
  else if 'A' ≤ c ∧ c ≤ 'F' then some (c.toNat - 55)
  else none

/-- Parse the body of a JSON string after its opening quote, honouring escapes
(an escaped quote does not end the string) and rejecting raw control characters,
as Python's strict `json.loads` does.  Returns the decoded body and the input
after the closing quote. -/
def parseStringBody : List Char → Except String (List Char × List Char)
  | [] => .error "Unterminated string"
  | c :: cs =>
    if c = '"' then .ok ([], cs)
    else if c = '\\' then
      match cs with
      | [] => .error "Unterminated string"
      | e :: cs2 =>
        match escChar e with
        | some ch =>
          match parseStringBody cs2 with
          | .error err => .error err
          | .ok (body, r) => .ok (ch :: body, r)
        | none =>
          if e = 'u' then
            match cs2 with
            | h1 :: h2 :: h3 :: h4 :: cs3 =>
              match hexVal h1, hexVal h2, hexVal h3, hexVal h4 with
              | some a, some b, some c2, some d =>
                match parseStringBody cs3 with
                | .error err => .error err
                | .ok (body, r) =>
                  .ok (Char.ofNat (((a * 16 + b) * 16 + c2) * 16 + d) :: body, r)
              | _, _, _, _ => .error "Invalid unicode escape"
            | _ => .error "Invalid unicode escape"
          else .error "Invalid escape"
    else if c.toNat < 32 then .error "Invalid control character"
    else
      match parseStringBody cs with
      | .error err => .error err
      | .ok (body, r) => .ok (c :: body, r)

/-- Take a maximal run of decimal digits. -/
def takeDigits : List Char → List Char × List Char
  | [] => ([], [])
  | c :: cs =>
    if c.isDigit then
      let p := takeDigits cs
      (c :: p.1, p.2)
    else ([], c :: cs)

/-- Optional fraction and exponent parts of a JSON number, mirroring the regex
`(\.\d+)?([eE][-+]?\d+)?` used by Python's json scanner: a malformed tail is not
an error, it is simply not part of the number. -/
def numFracExp (intPart : List Char) (s : List Char) : List Char × List Char :=
  let fr : List Char × List Char :=
    match s with
    | '.' :: d :: ds =>
      if d.isDigit then
        let p := takeDigits ds
        ('.' :: d :: p.1, p.2)
      else ([], s)
    | _ => ([], s)
  let s2 := fr.2
  let ex : List Char × List Char :=
    match s2 with
    | e :: t =>
      if e = 'e' || e = 'E' then
        match t with
        | d2 :: t2 =>
          if d2.isDigit then
            let p := takeDigits t2
            (e :: d2 :: p.1, p.2)
          else if d2 = '+' || d2 = '-' then
            match t2 with
            | d3 :: t3 =>
              if d3.isDigit then
                let p := takeDigits t3
                (e :: d2 :: d3 :: p.1, p.2)
              else ([], s2)
            | [] => ([], s2)
          else ([], s2)
        | [] => ([], s2)
      else ([], s2)
    | [] => ([], s2)
  (intPart ++ fr.1 ++ ex.1, ex.2)

/-- Unsigned part of a JSON number: `0` or a nonzero digit followed by digits
(leading zeros stop the number, as in Python's json number regex). -/
def numBody : List Char → Except String (List Char × List Char)
  | [] => .error "Expecting value"
  | c :: cs =>
    if c = '0' then .ok (numFracExp [c] cs)
    else if c.isDigit then
      let p := takeDigits cs
      .ok (numFracExp (c :: p.1) p.2)
    else .error "Expecting value"

/-- A JSON number with optional leading minus sign; returns the lexeme. -/
def parseNumber : List Char → Except String (List Char × List Char)
  | '-' :: rest =>
    match numBody rest with
    | .error e => .error e
    | .ok (lex, r) => .ok ('-' :: lex, r)
  | s => numBody s

/-- Strip a literal keyword from the front of the input. -/
def stripLit : List Char → List Char → Option (List Char)
  | [], s => some s
  | _, [] => none
  | l :: ls, c :: cs => if c = l then stripLit ls cs else none

/-- Value of a key in an object member list. -/
def lookupKey : List (List Char × Json) → List Char → Option Json
  | [], _ => none
  | (k0, v0) :: rest, k => if k0 = k then some v0 else lookupKey rest k

/-- Remove a key from an object member list. -/
def removeKey : List (List Char × Json) → List Char → List (List Char × Json)
  | [], _ => []
  | (k0, v0) :: rest, k =>
    if k0 = k then removeKey rest k else (k0, v0) :: removeKey rest k

/-- Prepend one member to the already-combined later members with Python `dict`
duplicate-key semantics: a key occurring again later keeps this (first) position
but the later value wins. -/
def dictCons (k : List Char) (v : Json) (kvs : List (List Char × Json)) :
    List (List Char × Json) :=
  match lookupKey kvs k with
  | some v2 => (k, v2) :: removeKey kvs k
  | none => (k, v) :: kvs

/-- Members of a JSON object after its opening brace (nonempty case), parsing
values with `pv`.  Error messages follow Python's `json` module decisions: a
member must start with a quoted name, be followed by a colon, and members are
separated by commas. -/
def parseMembersWith (pv : List Char → Except String (Json × List Char)) :
    Nat → List Char → Except String (List (List Char × Json) × List Char)
  | 0, _ => .error "Nesting limit exceeded"
  | Nat.succ n, s =>
    match skipWs s with
    | [] => .error "Expecting property name enclosed in double quotes"
    | c :: cs =>
      if c = '"' then
        match parseStringBody cs with
        | .error e => .error e
        | .ok (key, r1) =>
          match skipWs r1 with
          | ':' :: r2 =>
            match pv r2 with
            | .error e => .error e
            | .ok (v, r3) =>
              match skipWs r3 with
              | ',' :: r4 =>
                match parseMembersWith pv n r4 with
                | .error e => .error e
                | .ok (kvs, r5) => .ok (dictCons key v kvs, r5)
              | c2 :: r4 =>
                if c2 = rbrace then .ok ([(key, v)], r4)
                else .error "Expecting comma delimiter"
              | [] => .error "Expecting comma delimiter"
          | _ => .error "Expecting colon delimiter"
      else .error "Expecting property name enclosed in double quotes"

/-- Elements of a JSON array after its opening bracket (nonempty case). -/
def parseElemsWith (pv : List Char → Except String (Json × List Char)) :
    Nat → List Char → Except String (List Json × List Char)
  | 0, _ => .error "Nesting limit exceeded"
  | Nat.succ n, s =>
    match pv s with
    | .error e => .error e
    | .ok (v, r1) =>
      match skipWs r1 with
      | ',' :: r2 =>
        match parseElemsWith pv n r2 with
        | .error e => .error e
        | .ok (vs, r3) => .ok (v :: vs, r3)
      | ']' :: r2 => .ok ([v], r2)
      | _ => .error "Expecting comma delimiter"

/-- One JSON value (with leading whitespace), returning the remaining input.
The fuel bounds nesting depth; `loads` passes more fuel than any input can use.
Mirrors Python's `json.loads` value grammar, including its acceptance of the
non-standard `NaN`, `Infinity` and `-Infinity` constants. -/
def parseValue : Nat → List Char → Except String (Json × List Char)
  | 0, _ => .error "Nesting limit exceeded"
  | Nat.succ n, s =>
    match skipWs s with
    | [] => .error "Expecting value"
    | c :: cs =>
      if c = lbrace then
        match skipWs cs with
        | c2 :: r =>
          if c2 = rbrace then .ok (Json.obj [], r)
          else
            match parseMembersWith (parseValue n) (cs.length + 1) (c2 :: r) with
            | .error e => .error e
            | .ok (kvs, r2) => .ok (Json.obj kvs, r2)
        | [] => .error "Expecting property name enclosed in double quotes"
      else if c = '[' then
        match skipWs cs with
        | c2 :: r =>
          if c2 = ']' then .ok (Json.arr [], r)
          else
            match parseElemsWith (parseValue n) (cs.length + 1) (c2 :: r) with
            | .error e => .error e
            | .ok (vs, r2) => .ok (Json.arr vs, r2)
        | [] => .error "Expecting value"
      else if c = '"' then
        match parseStringBody cs with
        | .error e => .error e
        | .ok (body, r) => .ok (Json.str body, r)
      else if c = 'n' then
        match stripLit (chars "ull") cs with
        | some r => .ok (Json.null, r)
        | none => .error "Expecting value"
      else if c = 't' then
        match stripLit (chars "rue") cs with
        | some r => .ok (Json.bool true, r)
        | none => .error "Expecting value"
      else if c = 'f' then
        match stripLit (chars "alse") cs with
        | some r => .ok (Json.bool false, r)
        | none => .error "Expecting value"
      else if c = 'N' then
        match stripLit (chars "aN") cs with
        | some r => .ok (Json.num (chars "NaN"), r)
        | none => .error "Expecting value"
      else if c = 'I' then
        match stripLit (chars "nfinity") cs with
        | some r => .ok (Json.num (chars "Infinity"), r)
        | none => .error "Expecting value"
      else if c = '-' then
        match stripLit (chars "Infinity") cs with
        | some r => .ok (Json.num (chars "-Infinity"), r)
        | none =>
          match parseNumber (c :: cs) with
          | .error e => .error e
          | .ok (lex, r) => .ok (Json.num lex, r)
      else if c.isDigit then
        match parseNumber (c :: cs) with
        | .error e => .error e
        | .ok (lex, r) => .ok (Json.num lex, r)
      else .error "Expecting value"

/-- Embedding of `json.loads`: parse one value and require only whitespace after
it.  `Except.error` models a raised `json.JSONDecodeError`. -/
def loads (s : List Char) : Except String Json :=
  match parseValue (s.length + 2) s with
  | .error e => .error e
  | .ok (v, rest) =>
    match skipWs rest with
    | [] => .ok v
    | _ => .error "Extra data"

/-- Embedding of the notebook's `json_from_str` (cell 16): collect the
balanced-brace spans; with no span return `None` (here `Option.none`); otherwise
parse the *first* span with `json.loads`, whose exception propagates. -/
def json_from_str (s : List Char) : Except String (Option Json) :=
  match findall s with
  | [] => .ok none
  | c :: _ => Except.map some (loads c)

/-- Whether `json_from_str` raises on the given input. -/
def extractionRaises (s : List Char) : Bool :=
  match json_from_str s with
  | .error _ => true
  | .ok _ => false

/-- Embedding of the task-prompt f-string of notebook cell 12 (a triple-quoted
f-string).  It concatenates, in fixed order: a newline, the fenced report, the
fixed instruction sentence, the fenced schema, and the additional instructions,
each fence being three backticks. -/
def prompt (report_text schema_text additional_instructions : List Char) : List Char :=
  chars "\n```" ++ report_text ++
    chars "```\nPlease extract the findings from the preceding text radiology report using the following JSON schema:\n```" ++
    schema_text ++ chars "```\n" ++ additional_instructions ++ chars "\n"

/-- Embedding of the Llama-2-Chat template f-string (cell 13). -/
def llama2_prompt_template (system promptText : List Char) : List Char :=
  chars "[INST] <<SYS>>\n" ++ system ++ chars "\n<</SYS>>\n" ++ promptText ++
    chars "[/INST]\n"

/-- Embedding of the Mistral-7B-Instruct template f-string (cell 13). -/
def mistral_prompt_template (system promptText : List Char) : List Char :=
  chars "<s>[INST] " ++ system ++ chars " " ++ promptText ++ chars " [/INST]"

/-- Embedding of the template selection in cell 14:
`full_prompt = llama2_prompt_template if model == "llama-2" else mistral_prompt_template`.
Any model string other than `"llama-2"` takes the else branch. -/
def full_prompt (model system report_text schema_text additional_instructions : List Char) :
    List Char :=
  if model = chars "llama-2" then
    llama2_prompt_template system (prompt report_text schema_text additional_instructions)
  else
    mistral_prompt_template system (prompt report_text schema_text additional_instructions)

/-- The notebook's `schema` (cell 10): a plain Python string literal, constructed
with no validation of any kind. -/
def schema : List Char :=
  chars "\n\x7b\n    \"cardiomegaly\": \x7b \"type\": \"boolean\" \x7d,\n    \"lung_opacity\": \x7b \"type\": \"boolean\" \x7d,\n    \"pneumothorax\": \x7b \"type\": \"boolean\" \x7d,\n    \"pleural_effusion\": \x7b \"type\": \"boolean\" \x7d,\n    \"pulmonary_edema\": \x7b \"type\": \"boolean\" \x7d,\n    \"abnormal_study\": \x7b \"type\": \"boolean\" \x7d\n\x7d\n"

/-- Embedding of cell 17: `result_dict = {id: labels}`, a one-entry mapping from
report id to the extracted labels, stored exactly as produced. -/
def result_dict (rid : Nat) (labels : Option Json) : List (Nat × Option Json) :=
  [(rid, labels)]

/-- Lookup in a result mapping. -/
def lookupResult : List (Nat × Option Json) → Nat → Option (Option Json)
  | [], _ => none
  | (k, v) :: rest, rid => if k = rid then some v else lookupResult rest rid

/-- The keys of a JSON object (empty for non-objects). -/
def objKeys : Json → List (List Char)
  | Json.obj kvs => kvs.map Prod.fst
  | _ => []

/-- The finding names declared by the notebook's schema string, as obtained by
parsing it. -/
def schemaKeys : List (List Char) :=
  match loads schema with
  | .ok v => objKeys v
  | .error _ => []

/-- `needle` occurs verbatim as a contiguous segment of `hay`. -/
def containsSeg (needle hay : List Char) : Prop :=
  ∃ a b, hay = a ++ needle ++ b

theorem findallGo_nil (n : Nat) : findallGo n [] = [] := by
  cases n <;> rfl

theorem findallGo_fuel :
    ∀ (n m : Nat) (s : List Char), s.length ≤ n → s.length ≤ m →
      findallGo n s = findallGo m s := by
  intro n
  induction n with
  | zero =>
    intro m s hn _
    have : s = [] := List.eq_nil_of_length_eq_zero (Nat.le_zero.mp hn)
    subst this
    rw [findallGo_nil, findallGo_nil]
  | succ n ih =>
    intro m s hn hm
    cases s with
    | nil => rw [findallGo_nil, findallGo_nil]
    | cons c cs =>
      cases m with
      | zero => simp [List.length_cons] at hm
      | succ m2 =>
        have hn2 : cs.length ≤ n := by simp [List.length_cons] at hn; omega
        have hm2 : cs.length ≤ m2 := by simp [List.length_cons] at hm; omega
        show findallGo (Nat.succ n) (c :: cs) = findallGo (Nat.succ m2) (c :: cs)
        simp only [findallGo]
        by_cases hc : c = lbrace
        · rw [if_pos hc, if_pos hc]
          cases hk : closeIdx 0 cs with
          | some k =>
            have hd : (cs.drop k).length ≤ n := by
              have := List.length_drop k cs
              omega
            have hd2 : (cs.drop k).length ≤ m2 := by
              have := List.length_drop k cs
              omega
            dsimp only
            rw [ih m2 (cs.drop k) hd hd2]
          | none => dsimp only; exact ih m2 cs hn2 hm2
        · rw [if_neg hc, if_neg hc]
          exact ih m2 cs hn2 hm2

/-- Unfolding equation for `findall` on a cons cell, stated in terms of `findall`
itself. -/
theorem findall_cons (c : Char) (cs : List Char) :
    findall (c :: cs) =
      if c = lbrace then
        match closeIdx 0 cs with
        | some k => (c :: cs.take k) :: findall (cs.drop k)
        | none => findall cs
      else findall cs := by
  show findallGo (cs.length + 1) (c :: cs) = _
  simp only [findallGo, findall]
  by_cases hc : c = lbrace
  · rw [if_pos hc, if_pos hc]
    cases hk : closeIdx 0 cs with
    | some k =>
      have h2 : findallGo cs.length (cs.drop k) = findallGo (cs.drop k).length (cs.drop k) := by
        refine findallGo_fuel cs.length (cs.drop k).length (cs.drop k) ?_ ?_
        · have := List.length_drop k cs; omega
        · exact Nat.le_refl _
      dsimp only
      rw [h2]
    | none => rfl
  · rw [if_neg hc, if_neg hc]

theorem findall_cons_not_lbrace {c : Char} (cs : List Char) (hc : ¬ c = lbrace) :
    findall (c :: cs) = findall cs := by
  rw [findall_cons, if_neg hc]

theorem findall_cons_lbrace_some {cs : List Char} {k : Nat}
    (hk : closeIdx 0 cs = some k) :
    findall (lbrace :: cs) = (lbrace :: cs.take k) :: findall (cs.drop k) := by
  rw [findall_cons, if_pos rfl, hk]

/-- A balanced span keeps its matching close brace when more text is appended. -/
theorem closeIdx_append (ys : List Char) :
    ∀ (cs : List Char) (d n : Nat), closeIdx d cs = some n →
      closeIdx d (cs ++ ys) = some n := by
  intro cs
  induction cs with
  | nil => intro d n h; simp [closeIdx] at h
  | cons c cs ih =>
    intro d n h
    simp only [closeIdx, List.cons_append, List.append_eq] at h ⊢
    by_cases hc : c = lbrace
    · rw [if_pos hc] at h ⊢
      cases hcs : closeIdx (d + 1) cs with
      | none => rw [hcs] at h; simp at h
      | some m =>
        rw [hcs] at h
        simp only [Option.map_some'] at h
        rw [ih (d + 1) m hcs]
        simpa using h
    · rw [if_neg hc] at h ⊢
      by_cases hc2 : c = rbrace
      · rw [if_pos hc2] at h ⊢
        by_cases hd : d = 0
        · rw [if_pos hd] at h ⊢; exact h
        · rw [if_neg hd] at h ⊢
          cases hcs : closeIdx (d - 1) cs with
          | none => rw [hcs] at h; simp at h
          | some m =>
            rw [hcs] at h
            simp only [Option.map_some'] at h
            rw [ih (d - 1) m hcs]
            simpa using h
      · rw [if_neg hc2] at h ⊢
        cases hcs : closeIdx d cs with
        | none => rw [hcs] at h; simp at h
        | some m =>
          rw [hcs] at h
          simp only [Option.map_some'] at h
          rw [ih d m hcs]
          simpa using h

/-- Text containing no left brace yields no candidate span. -/
theorem findall_eq_nil_of_no_lbrace :
    ∀ (s : List Char), lbrace ∉ s → findall s = [] := by
  intro s
  induction s with
  | nil => intro _; rfl
  | cons c cs ih =>
    intro h
    have hc : ¬ c = lbrace := by
      intro e
      exact h (by rw [e]; exact List.mem_cons_self _ _)
    rw [findall_cons_not_lbrace cs hc]
    exact ih (fun hm => h (List.mem_cons_of_mem _ hm))

/-- Scanning skips over a brace-free portion of text. -/
theorem findall_append_of_no_lbrace :
    ∀ (pre t : List Char), lbrace ∉ pre → findall (pre ++ t) = findall t := by
  intro pre
  induction pre with
  | nil => intro t _; rfl
  | cons c pre ih =>
    intro t h
    have hc : ¬ c = lbrace := by
      intro e
      exact h (by rw [e]; exact List.mem_cons_self _ _)
    rw [List.cons_append, findall_cons_not_lbrace _ hc]
    exact ih t (fun hm => h (List.mem_cons_of_mem _ hm))

/-- The first candidate of a text starting with a balanced span is that span,
whatever follows it. -/
theorem findall_balanced_prefix (O2 post : List Char)
    (h : closeIdx 0 O2 = some O2.length) :
    findall ((lbrace :: O2) ++ post) = (lbrace :: O2) :: findall post := by
  have h2 : closeIdx 0 (O2 ++ post) = some O2.length := closeIdx_append post O2 0 _ h
  rw [List.cons_append, findall_cons_lbrace_some h2, List.take_left, List.drop_left]

set_option maxRecDepth 100000

/-- The notebook schema string declares exactly these six finding names. -/
theorem schemaKeys_eval :
    schemaKeys = [chars "cardiomegaly", chars "lung_opacity", chars "pneumothorax",
      chars "pleural_effusion", chars "pulmonary_edema", chars "abnormal_study"] := by
  rfl

/-- A segment of `p` is a segment of any extension of `p` on both sides. -/
theorem containsSeg_expand (n a p b : List Char) (h : containsSeg n p) :
    containsSeg n (a ++ p ++ b) := by
  have h2 : ∃ x y, p = x ++ n ++ y := h
  obtain ⟨x, y, hxy⟩ := h2
  show ∃ u w, a ++ p ++ b = u ++ n ++ w
  refine ⟨a ++ x, y ++ b, ?_⟩
  rw [hxy]
  simp [List.append_assoc]

/-- The task prompt contains the report text verbatim inside triple-backtick
fences. -/
theorem report_fenced_in_prompt (r s i : List Char) :
    containsSeg (chars "```" ++ r ++ chars "```") (prompt r s i) := by
  show ∃ a b, prompt r s i = a ++ (chars "```" ++ r ++ chars "```") ++ b
  refine ⟨chars "\n",
    chars "\nPlease extract the findings from the preceding text radiology report using the following JSON schema:\n```" ++
      s ++ chars "```\n" ++ i ++ chars "\n", ?_⟩
  have e1 : chars "\n```" = chars "\n" ++ chars "```" := by rfl
  have e2 : chars "```\nPlease extract the findings from the preceding text radiology report using the following JSON schema:\n```" =
      chars "```" ++
        chars "\nPlease extract the findings from the preceding text radiology report using the following JSON schema:\n```" := by
    rfl
  unfold prompt
  rw [e1, e2]
  simp [List.append_assoc]

/-- C1 (amended): extraction parses only the first balanced-brace span: when no
span exists the result is the explicit no-object value (`none`) without raising,
and when the first span fails to parse as JSON the decode error propagates as an
exception rather than the scan resuming at a later left brace. -/
theorem first_span_only (s : List Char) :
    (findall s = [] → json_from_str s = Except.ok none) ∧
    (∀ c cs e, findall s = c :: cs → loads c = Except.error e →
      json_from_str s = Except.error e) := by
  constructor
  · intro h
    unfold json_from_str
    rw [h]
  · intro c cs e h1 h2
    unfold json_from_str
    rw [h1]
    show Except.map some (loads c) = Except.error e
    rw [h2]
    rfl

/-- Witness for C1 at concrete inputs: brace-free prose gives the no-object
result, and a span with an unquoted key raises a property-name decode error. -/
theorem first_span_only_witness :
    json_from_str (chars "plain prose only") = Except.ok none ∧
    json_from_str (chars "\x7bkey: 1\x7d") =
      Except.error "Expecting property name enclosed in double quotes" :=
  ⟨(first_span_only (chars "plain prose only")).1 (by rfl),
   (first_span_only (chars "\x7bkey: 1\x7d")).2 (chars "\x7bkey: 1\x7d") [] _ (by rfl) (by rfl)⟩

/-- C1 counterexample: the first balanced span has a trailing comma and a later
span parses, so the claimed behavior is to skip the bad span and return the later
object; the code instead raises the decode error of the first span. -/
theorem skip_unparseable_cx :
    extractionRaises (chars "\x7b\"a\": 1,\x7d \x7b\"a\": 1\x7d") = true ∧
    loads (chars "\x7b\"a\": 1\x7d") =
      Except.ok (Json.obj [(chars "a", Json.num (chars "1"))]) :=
  ⟨by rfl, by rfl⟩

/-- C2 (amended): applying the chat template with any model string other than
"llama-2" silently selects the Mistral template: the code has no
UnsupportedModelFamily error, and being a pure string computation it mutates no
state. -/
theorem unknown_family_falls_back (model sys r s i : List Char)
    (h : ¬ model = chars "llama-2") :
    full_prompt model sys r s i = mistral_prompt_template sys (prompt r s i) := by
  unfold full_prompt
  rw [if_neg h]

/-- Witness for C2 at the concrete unknown family "vicuna". -/
theorem unknown_family_falls_back_witness :
    full_prompt (chars "vicuna") (chars "sys") (chars "rep") (chars "sch") (chars "ins") =
      mistral_prompt_template (chars "sys") (prompt (chars "rep") (chars "sch") (chars "ins")) :=
  unknown_family_falls_back _ _ _ _ _ (by decide)

/-- C2 counterexample: for the unknown model family "gpt-4" the code successfully
returns the Mistral-template prompt instead of failing with an
UnsupportedModelFamily error. -/
theorem unknown_family_cx :
    full_prompt (chars "gpt-4") (chars "sys") (chars "rep") (chars "sch") (chars "ins") =
      mistral_prompt_template (chars "sys") (prompt (chars "rep") (chars "sch") (chars "ins")) := by
  rfl

/-- C3 (amended): brace matching is not string-literal aware in general, but an
object whose in-string braces happen to be balanced, such as the spec example of
a string value containing a nested brace pair, is parsed successfully with the
string value preserved verbatim. -/
theorem nested_brace_string_ok :
    json_from_str (chars "\x7b\"note\": \"a \x7bnested\x7d brace\"\x7d") =
      Except.ok (some (Json.obj
        [(chars "note", Json.str (chars "a \x7bnested\x7d brace"))])) := by
  rfl

/-- C3 counterexample: a lone left brace inside a properly quoted string value
does affect nesting depth: the scanner mis-delimits the span and extraction
raises instead of parsing the object. -/
theorem brace_in_string_cx :
    extractionRaises (chars "\x7b\"note\": \"a \x7b brace\"\x7d") = true := by rfl

/-- C4 (amended): extraction attempts to parse only the first balanced candidate
of the left-to-right scan; in particular, when the text consists of two
sequential valid JSON objects, each one scanner-balanced span, only the first is
returned. -/
theorem first_of_two_objects (O1 sep O2 : List Char) (v1 v2 : Json)
    (h1 : balancedSpan O1 = true) (hp1 : loads O1 = Except.ok v1)
    (h2 : balancedSpan O2 = true) (hp2 : loads O2 = Except.ok v2) :
    json_from_str (O1 ++ sep ++ O2) = Except.ok (some v1) := by
  cases O1 with
  | nil => simp [balancedSpan] at h1
  | cons c cs =>
    have hb : c = lbrace ∧ closeIdx 0 cs = some cs.length := by
      simpa [balancedSpan] using h1
    obtain ⟨hc, hclose⟩ := hb
    subst hc
    have hf : findall ((lbrace :: cs) ++ sep ++ O2) = (lbrace :: cs) :: findall (sep ++ O2) := by
      rw [List.append_assoc]
      exact findall_balanced_prefix cs (sep ++ O2) hclose
    unfold json_from_str
    rw [hf]
    show Except.map some (loads (lbrace :: cs)) = Except.ok (some v1)
    rw [hp1]
    rfl

/-- Witness for C4: two sequential valid objects separated by prose; extraction
returns the first object only. -/
theorem first_of_two_objects_witness :
    json_from_str (chars "\x7b\"a\": true\x7d" ++ chars " and " ++ chars "\x7b\"b\": false\x7d") =
      Except.ok (some (Json.obj [(chars "a", Json.bool true)])) :=
  first_of_two_objects (chars "\x7b\"a\": true\x7d") (chars " and ")
    (chars "\x7b\"b\": false\x7d") (Json.obj [(chars "a", Json.bool true)])
    (Json.obj [(chars "b", Json.bool false)]) (by rfl) (by rfl) (by rfl) (by rfl)

/-- C4 counterexample: the first balanced candidate is not valid JSON while a
later candidate is; the first *successfully parsed* candidate is thus the later
one, but the code raises on the first candidate instead of returning it. -/
theorem first_parsed_candidate_cx :
    extractionRaises (chars "\x7bunquoted: true\x7d \x7b\"b\": false\x7d") = true ∧
    loads (chars "\x7b\"b\": false\x7d") =
      Except.ok (Json.obj [(chars "b", Json.bool false)]) :=
  ⟨by rfl, by rfl⟩

/-- C5 (amended): round-trip through prose: for every JSON text O that the
scanner sees as one balanced span (its braces, counted also inside string
literals, first balance at its final character) and that parses successfully,
and every preceding prose containing no left brace, extraction of the
concatenation returns exactly the parse of O, whatever follows. -/
theorem roundtrip_embedded_object (pre O post : List Char) (v : Json)
    (hpre : lbrace ∉ pre) (hO : balancedSpan O = true)
    (hparse : loads O = Except.ok v) :
    json_from_str (pre ++ O ++ post) = Except.ok (some v) := by
  cases O with
  | nil => simp [balancedSpan] at hO
  | cons c cs =>
    have hb : c = lbrace ∧ closeIdx 0 cs = some cs.length := by
      simpa [balancedSpan] using hO
    obtain ⟨hc, hclose⟩ := hb
    subst hc
    have hf : findall (pre ++ (lbrace :: cs) ++ post) = (lbrace :: cs) :: findall post := by
      rw [List.append_assoc, findall_append_of_no_lbrace pre _ hpre]
      exact findall_balanced_prefix cs post hclose
    unfold json_from_str
    rw [hf]
    show Except.map some (loads (lbrace :: cs)) = Except.ok (some v)
    rw [hparse]
    rfl

/-- Witness for C5: a valid object embedded between brace-free prose pieces is
returned unchanged. -/
theorem roundtrip_embedded_object_witness :
    json_from_str (chars "Sure thing: " ++ chars "\x7b\"ok\": true\x7d" ++ chars " Done.") =
      Except.ok (some (Json.obj [(chars "ok", Json.bool true)])) :=
  roundtrip_embedded_object (chars "Sure thing: ") (chars "\x7b\"ok\": true\x7d")
    (chars " Done.") (Json.obj [(chars "ok", Json.bool true)])
    (by decide) (by rfl) (by rfl)

/-- C5 counterexample, two parts.  First: prose whose braces are balanced (the
span around x) still derails extraction, which raises instead of returning the
valid object that follows.  Second: a valid JSON object whose string value
contains a lone left brace is mis-delimited by the scanner and extraction raises
even with no prose at all. -/
theorem balanced_prose_cx :
    extractionRaises (chars "I see \x7bx\x7d here \x7b\"a\": true\x7d") = true ∧
    extractionRaises (chars "\x7b\"a\": \"\x7b\"\x7d") = true :=
  ⟨by rfl, by rfl⟩

/-- C6: for every input text containing zero left-brace characters (including
the empty string), extraction returns the explicit no-object result (`none`) and
never raises. -/
theorem no_brace_returns_none (s : List Char) (h : lbrace ∉ s) :
    json_from_str s = Except.ok none := by
  unfold json_from_str
  rw [findall_eq_nil_of_no_lbrace s h]

/-- Witness for C6 at the empty text and at brace-free prose. -/
theorem no_brace_returns_none_witness :
    json_from_str (chars "") = Except.ok none ∧
    json_from_str (chars "just prose, no braces.") = Except.ok none :=
  ⟨no_brace_returns_none _ (by decide), no_brace_returns_none _ (by decide)⟩

/-- C7: task-prompt construction is pure and deterministic: any two runs on
identical (report, schema, instructions) inputs produce identical prompt
strings; the embedding is a function of exactly these inputs and nothing else. -/
theorem prompt_deterministic (r s i r2 s2 i2 : List Char)
    (hr : r = r2) (hs : s = s2) (hi : i = i2) :
    prompt r s i = prompt r2 s2 i2 := by
  rw [hr, hs, hi]

/-- Witness for C7 at concrete inputs. -/
theorem prompt_deterministic_witness :
    prompt (chars "report a") (chars "schema b") (chars "note c") =
      prompt (chars "report a") (chars "schema b") (chars "note c") :=
  prompt_deterministic _ _ _ _ _ _ rfl rfl rfl

/-- C8 (amended): schema construction performs no validation at all: any schema
text, duplicate or empty finding names included, is accepted and embedded
verbatim in the task prompt; no MalformedSchema error exists in the code. -/
theorem schema_passthrough (r s i : List Char) : containsSeg s (prompt r s i) := by
  show ∃ a b, prompt r s i = a ++ s ++ b
  refine ⟨chars "\n```" ++ r ++
    chars "```\nPlease extract the findings from the preceding text radiology report using the following JSON schema:\n```",
    chars "```\n" ++ i ++ chars "\n", ?_⟩
  unfold prompt
  simp [List.append_assoc]

/-- C8 counterexample: a schema text with an empty finding name and a duplicated
finding name is not rejected at construction time: prompt construction succeeds
and embeds it verbatim, with no MalformedSchema error raised. -/
theorem schema_no_validation_cx :
    prompt (chars "r") (chars "\x7b\"\": 1, \"a\": 1, \"a\": 2\x7d") (chars "i") =
      chars "\n```r```\nPlease extract the findings from the preceding text radiology report using the following JSON schema:\n```\x7b\"\": 1, \"a\": 1, \"a\": 2\x7d```\ni\n" := by
  rfl

/-- C9: extraction never filters by schema: an extracted record carrying a key
that is not one of the schema finding names is stored in the result mapping
unchanged, the foreign key neither rejected nor removed. -/
theorem hallucinated_keys_pass_through (s : List Char) (v : Json) (k : List Char)
    (rid : Nat) (hparse : json_from_str s = Except.ok (some v))
    (hk : k ∈ objKeys v) (hns : k ∉ schemaKeys) :
    lookupResult (result_dict rid (some v)) rid = some (some v) ∧ k ∈ objKeys v := by
  refine ⟨?_, hk⟩
  unfold result_dict lookupResult
  rw [if_pos rfl]

/-- Witness for C9: a record extracted from model output carrying the misspelled
finding name pulmonary_rama (not in the schema) is stored unchanged. -/
theorem hallucinated_keys_pass_through_witness :
    lookupResult (result_dict 1 (some (Json.obj [(chars "cardiomegaly", Json.bool false),
        (chars "pulmonary_rama", Json.bool false)]))) 1 =
      some (some (Json.obj [(chars "cardiomegaly", Json.bool false),
        (chars "pulmonary_rama", Json.bool false)])) ∧
    chars "pulmonary_rama" ∈ objKeys (Json.obj [(chars "cardiomegaly", Json.bool false),
        (chars "pulmonary_rama", Json.bool false)]) :=
  hallucinated_keys_pass_through
    (chars "Sure! \x7b\"cardiomegaly\": false, \"pulmonary_rama\": false\x7d")
    (Json.obj [(chars "cardiomegaly", Json.bool false),
      (chars "pulmonary_rama", Json.bool false)])
    (chars "pulmonary_rama") 1 (by rfl) (by decide)
    (by rw [schemaKeys_eval]; decide)

/-- C10: for every report text, system instruction and supported model family
(llama-2 and mistral), the fully composed prompt contains the report text
verbatim, enclosed in triple-backtick fences, as one contiguous segment; neither
template alters the report body. -/
theorem report_verbatim_in_full_prompt (model sys r s i : List Char)
    (h : model = chars "llama-2" ∨ model = chars "mistral") :
    containsSeg (chars "```" ++ r ++ chars "```") (full_prompt model sys r s i) := by
  have hp := report_fenced_in_prompt r s i
  rcases h with h | h <;> subst h
  · unfold full_prompt
    rw [if_pos rfl]
    unfold llama2_prompt_template
    exact containsSeg_expand _ (chars "[INST] <<SYS>>\n" ++ sys ++ chars "\n<</SYS>>\n")
      _ (chars "[/INST]\n") hp
  · unfold full_prompt
    rw [if_neg (by decide)]
    unfold mistral_prompt_template
    exact containsSeg_expand _ (chars "<s>[INST] " ++ sys ++ chars " ")
      _ (chars " [/INST]") hp

/-- Witness for C10 at the llama-2 family and concrete texts. -/
theorem report_verbatim_in_full_prompt_witness :
    containsSeg (chars "```" ++ chars "rep" ++ chars "```")
      (full_prompt (chars "llama-2") (chars "sys") (chars "rep") (chars "sch")
        (chars "ins")) :=
  report_verbatim_in_full_prompt _ _ _ _ _ (Or.inl rfl)
